import Mathlib

/-!
Verification of the Docker-Config-Extractor core (pkg/containerconfig):
a shallow embedding of parser.go (ParseInspectJSON and the InspectData
decoding performed by encoding/json.Unmarshal), types.go (ContainerSpec,
RunOptions) and generator.go (the token-list GenerateRunCommand and the
textual single-string variant), together with theorems settling the
frozen claims about them.

Modelling conventions:
* The JSON input is embedded as a `Json` value tree; the text-to-tree
  syntax layer belongs to the Go standard library, not to this
  repository.  `encoding/json.Unmarshal`'s typed decoding into the
  `InspectData` struct is modelled field by field: a JSON null leaves a
  field at its zero value, an absent key leaves the zero value, a
  type-mismatched value is a decode error, unknown keys are ignored and
  a duplicated key keeps its last occurrence.  (The standard library's
  case-insensitive key fallback is not modelled; every document used
  here matches the struct tags exactly.)
* Go maps (`Labels`, `NetworkSettings.Networks`, `NetworkSettings.Ports`)
  are embedded as association lists carrying one concrete iteration
  order; the generator is additionally stated over an explicit
  `labelOrder` argument so that Go's unspecified map iteration order can
  be quantified over.
* Go machine integers only occur as `MaximumRetryCount int`, embedded as
  `Int` (its value is never used by the repository's logic).
-/

/-- JSON value trees: the decoded form of the inspection text handed to the
parser.  Numbers are embedded as integers; no claim touches fractional
values. -/
inductive Json where
| null : Json
| bool (b : Bool) : Json
| num (n : Int) : Json
| str (s : String) : Json
| arr (xs : List Json) : Json
| obj (fields : List (String × Json)) : Json

/-- ContainerSpec (types.go): the normalized configuration of a container.
The Go `map[string]string` field `Labels` is an association list carrying
the map's iteration order. -/
structure ContainerSpec where
  Name : String
  Image : String
  Env : List String
  Volumes : List String
  Ports : List String
  Networks : List String
  Command : List String
  WorkingDir : String
  Labels : List (String × String)
  EntryPoint : List String
  Devices : List String
  ExtraHosts : List String
  Restart : String

/-- RunOptions (types.go): options for generating the run command.  The Go
`*RunOptions` pointer argument is embedded as `Option RunOptions`. -/
structure RunOptions where
  Name : String

/-- Config section of InspectData (parser.go lines 12-19).  `Type` is a
keyword in Lean, hence the Go field `Type` of mounts below is spelled
`type`; all other field names match the Go struct. -/
structure ConfigData where
  Image : String
  Env : List String
  Cmd : List String
  Entrypoint : List String
  Labels : List (String × String)
  WorkingDir : String

/-- One Mounts record of InspectData (parser.go lines 20-26). -/
structure MountData where
  type : String
  Source : String
  Destination : String
  Mode : String
  RW : Bool

/-- One host binding of a container port (parser.go lines 29-32). -/
structure PortBinding where
  HostIP : String
  HostPort : String

/-- NetworkSettings section of InspectData (parser.go lines 27-33); the Go
`map[string]interface{}` of networks keeps its keys with arbitrary JSON
values, the ports map is keyed by `containerPort/protocol`. -/
structure NetworkSettingsData where
  Networks : List (String × Json)
  Ports : List (String × List PortBinding)

/-- One Devices record of HostConfig (parser.go lines 35-39). -/
structure DeviceData where
  PathOnHost : String
  PathInContainer : String
  CgroupPermissions : String

/-- RestartPolicy section of HostConfig (parser.go lines 40-43). -/
structure RestartPolicyData where
  Name : String
  MaximumRetryCount : Int

/-- HostConfig section of InspectData (parser.go lines 34-45). -/
structure HostConfigData where
  Devices : List DeviceData
  RestartPolicy : RestartPolicyData
  ExtraHosts : List String

/-- InspectData (parser.go lines 10-46): one element of the docker inspect
output array. -/
structure InspectData where
  Name : String
  Config : ConfigData
  Mounts : List MountData
  NetworkSettings : NetworkSettingsData
  HostConfig : HostConfigData

/-- Go zero value of ConfigData. -/
def zeroConfig : ConfigData :=
  { Image := "", Env := [], Cmd := [], Entrypoint := [], Labels := [], WorkingDir := "" }

/-- Go zero value of PortBinding. -/
def zeroBinding : PortBinding :=
  { HostIP := "", HostPort := "" }

/-- Go zero value of MountData. -/
def zeroMount : MountData :=
  { type := "", Source := "", Destination := "", Mode := "", RW := false }

/-- Go zero value of NetworkSettingsData. -/
def zeroNetworkSettings : NetworkSettingsData :=
  { Networks := [], Ports := [] }

/-- Go zero value of DeviceData. -/
def zeroDevice : DeviceData :=
  { PathOnHost := "", PathInContainer := "", CgroupPermissions := "" }

/-- Go zero value of RestartPolicyData. -/
def zeroRestartPolicy : RestartPolicyData :=
  { Name := "", MaximumRetryCount := 0 }

/-- Go zero value of HostConfigData. -/
def zeroHostConfig : HostConfigData :=
  { Devices := [], RestartPolicy := zeroRestartPolicy, ExtraHosts := [] }

/-- Go zero value of InspectData. -/
def zeroInspect : InspectData :=
  { Name := "", Config := zeroConfig, Mounts := [], NetworkSettings := zeroNetworkSettings,
    HostConfig := zeroHostConfig }

/-- encoding/json: last occurrence of a key in a JSON object wins when
assigning to a struct field. -/
def lookupLast (key : String) : List (String × Json) → Option Json
| [] => none
| kv :: rest =>
  match lookupLast key rest with
  | some v => some v
  | none => if kv.1 = key then some kv.2 else none

/-- encoding/json: decode one struct field from an object; an absent key
leaves the Go zero value and is not an error. -/
def decodeField {α : Type} (fs : List (String × Json)) (key : String)
    (dec : Json → Option α) (dflt : α) : Option α :=
  match lookupLast key fs with
  | none => some dflt
  | some j => dec j

/-- encoding/json: a Go string accepts a JSON string, or null (zero value);
anything else is a type error. -/
def decodeString : Json → Option String
| Json.str s => some s
| Json.null => some ("")
| _ => none

/-- encoding/json: a Go bool accepts a JSON bool or null. -/
def decodeBool : Json → Option Bool
| Json.bool b => some b
| Json.null => some false
| _ => none

/-- encoding/json: a Go int accepts a JSON number or null. -/
def decodeInt : Json → Option Int
| Json.num n => some n
| Json.null => some 0
| _ => none

/-- encoding/json: a Go slice accepts a JSON array (decoding every
element, failing if any element fails) or null (nil slice). -/
def decodeList {α : Type} (dec : Json → Option α) : Json → Option (List α)
| Json.arr xs => xs.mapM dec
| Json.null => some []
| _ => none

/-- encoding/json: a Go `map[string]V` accepts a JSON object (decoding
every value) or null (nil map); the key order of the object is the
association list's order. -/
def decodePairs {α : Type} (dec : Json → Option α) : Json → Option (List (String × α))
| Json.obj fs => fs.mapM (fun kv => (dec kv.2).map (fun v => (kv.1, v)))
| Json.null => some []
| _ => none

/-- Decoding of `[]string`. -/
def decodeStringList : Json → Option (List String) :=
  decodeList decodeString

/-- Decoding of `map[string]string` (the Labels field). -/
def decodeStringPairs : Json → Option (List (String × String)) :=
  decodePairs decodeString

/-- Decoding of `map[string]interface{}` (the Networks field): any JSON
object is accepted, values kept as raw JSON. -/
def decodeNetworks : Json → Option (List (String × Json))
| Json.obj fs => some fs
| Json.null => some []
| _ => none

/-- Decoding of the Config struct of InspectData. -/
def decodeConfig : Json → Option ConfigData
| Json.obj fs => do
  let image ← decodeField fs ("Image") decodeString ("")
  let env ← decodeField fs ("Env") decodeStringList []
  let cmd ← decodeField fs ("Cmd") decodeStringList []
  let entrypoint ← decodeField fs ("Entrypoint") decodeStringList []
  let labels ← decodeField fs ("Labels") decodeStringPairs []
  let workingDir ← decodeField fs ("WorkingDir") decodeString ("")
  some { Image := image, Env := env, Cmd := cmd, Entrypoint := entrypoint,
         Labels := labels, WorkingDir := workingDir }
| Json.null => some zeroConfig
| _ => none

/-- Decoding of one Mounts record. -/
def decodeMount : Json → Option MountData
| Json.obj fs => do
  let ty ← decodeField fs ("Type") decodeString ("")
  let source ← decodeField fs ("Source") decodeString ("")
  let destination ← decodeField fs ("Destination") decodeString ("")
  let mode ← decodeField fs ("Mode") decodeString ("")
  let rw ← decodeField fs ("RW") decodeBool false
  some { type := ty, Source := source, Destination := destination, Mode := mode, RW := rw }
| Json.null => some zeroMount
| _ => none

/-- Decoding of one host port binding. -/
def decodeBinding : Json → Option PortBinding
| Json.obj fs => do
  let hip ← decodeField fs ("HostIp") decodeString ("")
  let hport ← decodeField fs ("HostPort") decodeString ("")
  some { HostIP := hip, HostPort := hport }
| Json.null => some zeroBinding
| _ => none

/-- Decoding of the NetworkSettings struct. -/
def decodeNetworkSettings : Json → Option NetworkSettingsData
| Json.obj fs => do
  let networks ← decodeField fs ("Networks") decodeNetworks []
  let ports ← decodeField fs ("Ports") (decodePairs (decodeList decodeBinding)) []
  some { Networks := networks, Ports := ports }
| Json.null => some zeroNetworkSettings
| _ => none

/-- Decoding of one Devices record. -/
def decodeDevice : Json → Option DeviceData
| Json.obj fs => do
  let pathOnHost ← decodeField fs ("PathOnHost") decodeString ("")
  let pathInContainer ← decodeField fs ("PathInContainer") decodeString ("")
  let cgroupPermissions ← decodeField fs ("CgroupPermissions") decodeString ("")
  some { PathOnHost := pathOnHost, PathInContainer := pathInContainer,
         CgroupPermissions := cgroupPermissions }
| Json.null => some zeroDevice
| _ => none

/-- Decoding of the RestartPolicy struct. -/
def decodeRestartPolicy : Json → Option RestartPolicyData
| Json.obj fs => do
  let name ← decodeField fs ("Name") decodeString ("")
  let maxRetry ← decodeField fs ("MaximumRetryCount") decodeInt 0
  some { Name := name, MaximumRetryCount := maxRetry }
| Json.null => some zeroRestartPolicy
| _ => none

/-- Decoding of the HostConfig struct. -/
def decodeHostConfig : Json → Option HostConfigData
| Json.obj fs => do
  let devices ← decodeField fs ("Devices") (decodeList decodeDevice) []
  let restartPolicy ← decodeField fs ("RestartPolicy") decodeRestartPolicy zeroRestartPolicy
  let extraHosts ← decodeField fs ("ExtraHosts") decodeStringList []
  some { Devices := devices, RestartPolicy := restartPolicy, ExtraHosts := extraHosts }
| Json.null => some zeroHostConfig
| _ => none

/-- Decoding of one InspectData element. -/
def decodeInspectData : Json → Option InspectData
| Json.obj fs => do
  let name ← decodeField fs ("Name") decodeString ("")
  let config ← decodeField fs ("Config") decodeConfig zeroConfig
  let mounts ← decodeField fs ("Mounts") (decodeList decodeMount) []
  let networkSettings ← decodeField fs ("NetworkSettings") decodeNetworkSettings zeroNetworkSettings
  let hostConfig ← decodeField fs ("HostConfig") decodeHostConfig zeroHostConfig
  some { Name := name, Config := config, Mounts := mounts,
         NetworkSettings := networkSettings, HostConfig := hostConfig }
| Json.null => some zeroInspect
| _ => none

/-- json.Unmarshal of the whole input into `[]InspectData` (parser.go line
51): the top level must be a JSON array (or null, giving a nil slice); a
failure anywhere inside is the unmarshal error. -/
def decodeInspectArray : Json → Option (List InspectData)
| Json.arr xs => xs.mapM decodeInspectData
| Json.null => some []
| _ => none

/-- The two failure kinds of ParseInspectJSON (parser.go lines 51-57):
`failed to parse JSON` and `empty inspect data`. -/
inductive ParseError where
| MalformedJSON : ParseError
| EmptyResult : ParseError

/-- strings.TrimPrefix(s, "/") as used on the container name
(parser.go line 61): one leading slash removed when present. -/
def stripSlash (s : String) : String :=
  match s.data with
  | [] => s
  | c :: rest => if c = '/' then String.mk rest else s

/-- Characters before the first slash. -/
def untilSlash : List Char → List Char
| [] => []
| c :: rest => if c = '/' then [] else c :: untilSlash rest

/-- strings.Split(containerPort, "/")[0] (parser.go line 91): the container
port key truncated at its first slash. -/
def portKeyBase (s : String) : String :=
  String.mk (untilSlash s.data)

/-- The ContainerSpec built from the first inspection element (parser.go
lines 59-117).  Each field mirrors the corresponding Go assignment or
append loop; the loops are `foldl` over the source lists. -/
def specFromInspect (data : InspectData) : ContainerSpec :=
  { Name := stripSlash data.Name
    Image := data.Config.Image
    Env := data.Config.Env
    Command := data.Config.Cmd
    EntryPoint := data.Config.Entrypoint
    Labels := data.Config.Labels
    WorkingDir := data.Config.WorkingDir
    Volumes := data.Mounts.foldl (fun acc mount =>
      let volumeStr : String :=
        if mount.type = "bind" then mount.Source ++ ":" ++ mount.Destination
        else if mount.type = "volume" then mount.Source ++ ":" ++ mount.Destination
        else ""
      if volumeStr ≠ "" then
        acc ++ [if !mount.RW then volumeStr ++ ":ro" else volumeStr]
      else acc) []
    Ports := data.NetworkSettings.Ports.foldl (fun acc kv =>
      if kv.2.length > 0 then
        kv.2.foldl (fun acc2 binding =>
          if binding.HostPort ≠ "" then
            acc2 ++ [binding.HostPort ++ ":" ++ portKeyBase kv.1]
          else acc2) acc
      else acc) []
    Networks := data.NetworkSettings.Networks.foldl (fun acc kv => acc ++ [kv.1]) []
    Devices := data.HostConfig.Devices.foldl (fun acc device =>
      acc ++ [device.PathOnHost ++ ":" ++ device.PathInContainer]) []
    Restart := if data.HostConfig.RestartPolicy.Name ≠ "" ∧
                  data.HostConfig.RestartPolicy.Name ≠ "no"
               then data.HostConfig.RestartPolicy.Name else ""
    ExtraHosts := data.HostConfig.ExtraHosts }

/-- ParseInspectJSON (parser.go lines 49-117): unmarshal the array, fail on
malformed input, fail on an empty array, otherwise build the spec from the
first element. -/
def ParseInspectJSON (j : Json) : Except ParseError ContainerSpec :=
  match decodeInspectArray j with
  | none => Except.error ParseError.MalformedJSON
  | some [] => Except.error ParseError.EmptyResult
  | some (data :: _) => Except.ok (specFromInspect data)

/-- GenerateRunCommand (generator.go lines 9-78), the token-list variant,
with the Go map iteration order over spec.Labels made explicit as
`labelOrder`.  Each step mirrors one block of the Go function. -/
def GenerateRunCommandWithOrder (spec : ContainerSpec) (opts : Option RunOptions)
    (labelOrder : List (String × String)) : List String :=
  let args : List String := []
  let args :=
    match opts with
    | some o =>
      if o.Name ≠ "" then args ++ ["--name", o.Name]
      else if spec.Name ≠ "" then args ++ ["--name", spec.Name]
      else args
    | none => if spec.Name ≠ "" then args ++ ["--name", spec.Name] else args
  let args := spec.Env.foldl (fun a env => a ++ ["-e", env]) args
  let args := spec.Volumes.foldl (fun a vol => a ++ ["-v", vol]) args
  let args := spec.Ports.foldl (fun a port => a ++ ["-p", port]) args
  let args := spec.Networks.foldl (fun a network => a ++ ["--network", network]) args
  let args := if spec.WorkingDir ≠ "" then args ++ ["-w", spec.WorkingDir] else args
  let args := labelOrder.foldl (fun a kv => a ++ ["-l", kv.1 ++ "=" ++ kv.2]) args
  let args := spec.Devices.foldl (fun a device => a ++ ["--device", device]) args
  let args := spec.ExtraHosts.foldl (fun a host => a ++ ["--add-host", host]) args
  let args := if spec.Restart ≠ "" then args ++ ["--restart", spec.Restart] else args
  let args :=
    match spec.EntryPoint with
    | [] => args
    | e0 :: _ => args ++ ["--entrypoint", e0]
  let args := args ++ [spec.Image]
  let args := if spec.Command.length > 0 then args ++ spec.Command else args
  args

/-- GenerateRunCommand (generator.go lines 9-78) as called: the label order
is the Labels map's own iteration order. -/
def GenerateRunCommand (spec : ContainerSpec) (opts : Option RunOptions) : List String :=
  GenerateRunCommandWithOrder spec opts spec.Labels

/-- One hexadecimal digit, lower case. -/
def hexDigit (n : Nat) : Char :=
  if n < 10 then Char.ofNat (48 + n) else Char.ofNat (87 + n)

/-- Escaping of one character as in Go strconv.Quote, the quoting fmt's %q
verb applies (ASCII fragment; non-printable bytes take hex escapes). -/
def goQuoteChar (c : Char) : List Char :=
  if c = '"' then ['\\', '"']
  else if c = '\\' then ['\\', '\\']
  else if c = '\n' then ['\\', 'n']
  else if c = '\t' then ['\\', 't']
  else if c = '\r' then ['\\', 'r']
  else if 32 ≤ c.toNat ∧ c.toNat < 127 then [c]
  else ['\\', 'x', hexDigit (c.toNat / 16 % 16), hexDigit (c.toNat % 16)]

/-- fmt.Sprintf("%q", s): the Go-syntax double-quoted form of s. -/
def goQuote (s : String) : String :=
  String.mk ('"' :: s.data.foldr (fun c acc => goQuoteChar c ++ acc) ['"'])

/-- The textual GenerateRunCommand variant (generator.go lines 87-158): the
parts list it builds before joining with spaces, with the label iteration
order explicit.  Each step mirrors one block of the Go function; note the
leading "docker run" part appended first (line 89). -/
def GenerateRunCommandStrParts (spec : ContainerSpec) (opts : Option RunOptions)
    (labelOrder : List (String × String)) : List String :=
  let parts : List String := []
  let parts := parts ++ ["docker run"]
  let parts :=
    match opts with
    | some o =>
      if o.Name ≠ "" then parts ++ ["--name " ++ o.Name]
      else if spec.Name ≠ "" then parts ++ ["--name " ++ spec.Name]
      else parts
    | none => if spec.Name ≠ "" then parts ++ ["--name " ++ spec.Name] else parts
  let parts := spec.Env.foldl (fun a env => a ++ ["-e " ++ goQuote env]) parts
  let parts := spec.Volumes.foldl (fun a vol => a ++ ["-v " ++ vol]) parts
  let parts := spec.Ports.foldl (fun a port => a ++ ["-p " ++ port]) parts
  let parts := spec.Networks.foldl (fun a network => a ++ ["--network " ++ network]) parts
  let parts := if spec.WorkingDir ≠ "" then parts ++ ["-w " ++ spec.WorkingDir] else parts
  let parts := labelOrder.foldl (fun a kv => a ++ ["-l " ++ kv.1 ++ "=" ++ goQuote kv.2]) parts
  let parts := spec.Devices.foldl (fun a device => a ++ ["--device " ++ device]) parts
  let parts := spec.ExtraHosts.foldl (fun a host => a ++ ["--add-host " ++ host]) parts
  let parts := if spec.Restart ≠ "" then parts ++ ["--restart " ++ spec.Restart] else parts
  let parts :=
    match spec.EntryPoint with
    | [] => parts
    | e0 :: _ => parts ++ ["--entrypoint " ++ e0]
  let parts := parts ++ [spec.Image]
  let parts :=
    if spec.Command.length > 0 then parts ++ [String.intercalate (" ") spec.Command]
    else parts
  parts

/-- The textual GenerateRunCommand variant (generator.go lines 87-158):
strings.Join(parts, " ") of the parts list, labels iterated in the map's
own order. -/
def GenerateRunCommandStr (spec : ContainerSpec) (opts : Option RunOptions) : String :=
  String.intercalate (" ") (GenerateRunCommandStrParts spec opts spec.Labels)

/-- The end-to-end example specification of the spec's testable
properties: name app, image alpine, one env entry, one volume, one port,
a two-token command. -/
def exSpecC1 : ContainerSpec :=
  { Name := "app", Image := "alpine", Env := ["X=1"], Volumes := ["/a:/b"],
    Ports := ["80:80"], Networks := [], Command := ["echo", "hi"], WorkingDir := "",
    Labels := [], EntryPoint := [], Devices := [], ExtraHosts := [], Restart := "" }

/-- A Go append loop: folding list-append of a per-element token block over
a list is the accumulator followed by the flattened blocks. -/
theorem foldl_append_flat {α β : Type} (f : α → List β) :
    ∀ (l : List α) (acc : List β),
      l.foldl (fun a x => a ++ f x) acc = acc ++ l.flatMap f := by
  intro l
  induction l with
  | nil => intro acc; simp
  | cons x xs ih => intro acc; simp [ih, List.append_assoc]

/-- A conditional Go append: appending under a condition is appending the
conditional block. -/
theorem append_ite {α : Type} (c : Prop) [Decidable c] (x y : List α) :
    (if c then x ++ y else x) = x ++ (if c then y else []) := by
  by_cases h : c <;> simp [h]

/-- The generator's final command step: guarding the append of the whole
list with a positive-length test changes nothing. -/
theorem append_if_length {α : Type} (x l : List α) :
    (if l.length > 0 then x ++ l else x) = x ++ l := by
  cases l <;> simp

/-- Flattening singleton blocks is mapping. -/
theorem flatMap_singleton_eq_map {α β : Type} (f : α → β) (l : List α) :
    l.flatMap (fun x => [f x]) = l.map f := by
  induction l <;> simp [*]

/-- Flattening after mapping composes the two functions. -/
theorem flatMap_after_map {α β γ : Type} (g : α → β) (f : β → List γ) (l : List α) :
    (l.map g).flatMap f = l.flatMap (fun x => f (g x)) := by
  induction l <;> simp [*]

/-- Flattening distributes over a conditional list. -/
theorem flatMap_ite {α β : Type} (c : Prop) [Decidable c] (x y : List α) (f : α → List β) :
    (if c then x else y).flatMap f = if c then x.flatMap f else y.flatMap f := by
  by_cases h : c <;> simp [h]

/-- Mapping distributes over a conditional list. -/
theorem map_over_ite {α β : Type} (c : Prop) [Decidable c] (x y : List α) (f : α → β) :
    (if c then x else y).map f = if c then x.map f else y.map f := by
  by_cases h : c <;> simp [h]

/-- A source:destination string is never empty (it contains the colon), so
the generator's emptiness test on volumeStr is exactly the mount-type
test. -/
theorem colon_append_ne_empty (s t : String) : s ++ ":" ++ t ≠ "" := by
  intro h
  have h2 := congrArg String.data h
  simp [String.data_append] at h2

/-- The name tokens of the claims' wording: the overrides' name when
present and non-empty, else the specification's non-empty name, else
nothing. -/
def nameSelect (spec : ContainerSpec) (opts : Option RunOptions) : List String :=
  match opts with
  | some o =>
    if o.Name ≠ "" then ["--name", o.Name]
    else if spec.Name ≠ "" then ["--name", spec.Name]
    else []
  | none => if spec.Name ≠ "" then ["--name", spec.Name] else []

/-- The label tokens emitted for one label iteration order: a "-l key=value"
pair per label, in that order. -/
def labelArgs (labelOrder : List (String × String)) : List String :=
  labelOrder.flatMap (fun kv => ["-l", kv.1 ++ "=" ++ kv.2])

/-- Closed form of the token-list generator: the thirteen emission steps
concatenated in the source's order. -/
theorem generate_closed (spec : ContainerSpec) (opts : Option RunOptions)
    (labelOrder : List (String × String)) :
    GenerateRunCommandWithOrder spec opts labelOrder =
      nameSelect spec opts
      ++ spec.Env.flatMap (fun env => ["-e", env])
      ++ spec.Volumes.flatMap (fun vol => ["-v", vol])
      ++ spec.Ports.flatMap (fun port => ["-p", port])
      ++ spec.Networks.flatMap (fun network => ["--network", network])
      ++ (if spec.WorkingDir ≠ "" then ["-w", spec.WorkingDir] else [])
      ++ labelArgs labelOrder
      ++ spec.Devices.flatMap (fun device => ["--device", device])
      ++ spec.ExtraHosts.flatMap (fun host => ["--add-host", host])
      ++ (if spec.Restart ≠ "" then ["--restart", spec.Restart] else [])
      ++ (match spec.EntryPoint with | [] => [] | e0 :: _ => ["--entrypoint", e0])
      ++ [spec.Image]
      ++ spec.Command := by
  unfold GenerateRunCommandWithOrder nameSelect labelArgs
  cases opts <;> cases h : spec.EntryPoint <;>
    simp only [foldl_append_flat, append_if_length, List.nil_append, h] <;>
    split_ifs <;> simp [List.append_assoc]

/-- The generator's two-armed conditional append for the name block:
appending under either condition is appending the conditional block. -/
theorem append_ite2 {α : Type} (c1 c2 : Prop) [Decidable c1] [Decidable c2]
    (x y1 y2 : List α) :
    (if c1 then x ++ y1 else if c2 then x ++ y2 else x) =
      x ++ (if c1 then y1 else if c2 then y2 else []) := by
  by_cases h1 : c1 <;> by_cases h2 : c2 <;> simp [h1, h2]

/-- A positive-length guard on a cons list takes the then-branch. -/
theorem ite_length_cons {α β : Type} (x : α) (xs : List α) (a b : β) :
    (if (x :: xs).length > 0 then a else b) = a := by
  simp

/-- A positive-length guard on the empty list takes the else-branch. -/
theorem ite_length_nil {α β : Type} (a b : β) :
    (if ([] : List α).length > 0 then a else b) = b := by
  simp

/-- Closed form of the textual variant's parts list: the same thirteen
emission steps, each rendered as one display part, after the fixed
"docker run" part. -/
theorem parts_closed (spec : ContainerSpec) (opts : Option RunOptions)
    (labelOrder : List (String × String)) :
    GenerateRunCommandStrParts spec opts labelOrder =
      ["docker run"]
      ++ (match opts with
          | some o =>
            if o.Name ≠ "" then ["--name " ++ o.Name]
            else if spec.Name ≠ "" then ["--name " ++ spec.Name]
            else []
          | none => if spec.Name ≠ "" then ["--name " ++ spec.Name] else [])
      ++ spec.Env.map (fun env => "-e " ++ goQuote env)
      ++ spec.Volumes.map (fun vol => "-v " ++ vol)
      ++ spec.Ports.map (fun port => "-p " ++ port)
      ++ spec.Networks.map (fun network => "--network " ++ network)
      ++ (if spec.WorkingDir ≠ "" then ["-w " ++ spec.WorkingDir] else [])
      ++ labelOrder.map (fun kv => "-l " ++ kv.1 ++ "=" ++ goQuote kv.2)
      ++ spec.Devices.map (fun device => "--device " ++ device)
      ++ spec.ExtraHosts.map (fun host => "--add-host " ++ host)
      ++ (if spec.Restart ≠ "" then ["--restart " ++ spec.Restart] else [])
      ++ (match spec.EntryPoint with | [] => [] | e0 :: _ => ["--entrypoint " ++ e0])
      ++ [spec.Image]
      ++ (match spec.Command with
          | [] => []
          | _ :: _ => [String.intercalate (" ") spec.Command]) := by
  unfold GenerateRunCommandStrParts
  cases opts <;> cases h : spec.EntryPoint <;> cases hc : spec.Command <;>
    simp only [foldl_append_flat, flatMap_singleton_eq_map, append_ite, append_ite2,
               ite_length_cons, ite_length_nil, List.nil_append, h, hc] <;>
    split_ifs <;> simp [List.append_assoc]

/-- One emitted field of the run command: the common structure the
token-list variant and the textual variant both render. -/
inductive RunField where
| nameF (n : String) : RunField
| envF (e : String) : RunField
| volF (v : String) : RunField
| portF (p : String) : RunField
| netF (n : String) : RunField
| wdF (d : String) : RunField
| labelF (k : String) (v : String) : RunField
| devF (d : String) : RunField
| hostF (h : String) : RunField
| restartF (r : String) : RunField
| entryF (e : String) : RunField
| imageF (i : String) : RunField
| cmdF (c : List String) : RunField

/-- Rendering of one field as flat argument tokens, as the token-list
variant emits it. -/
def RunField.toTokens : RunField → List String
| RunField.nameF n => ["--name", n]
| RunField.envF e => ["-e", e]
| RunField.volF v => ["-v", v]
| RunField.portF p => ["-p", p]
| RunField.netF n => ["--network", n]
| RunField.wdF d => ["-w", d]
| RunField.labelF k v => ["-l", k ++ "=" ++ v]
| RunField.devF d => ["--device", d]
| RunField.hostF h => ["--add-host", h]
| RunField.restartF r => ["--restart", r]
| RunField.entryF e => ["--entrypoint", e]
| RunField.imageF i => [i]
| RunField.cmdF c => c

/-- Rendering of one field as one display part, as the textual variant
emits it (env and label values pass through the %q quoting). -/
def RunField.toDisplay : RunField → String
| RunField.nameF n => "--name " ++ n
| RunField.envF e => "-e " ++ goQuote e
| RunField.volF v => "-v " ++ v
| RunField.portF p => "-p " ++ p
| RunField.netF n => "--network " ++ n
| RunField.wdF d => "-w " ++ d
| RunField.labelF k v => "-l " ++ k ++ "=" ++ goQuote v
| RunField.devF d => "--device " ++ d
| RunField.hostF h => "--add-host " ++ h
| RunField.restartF r => "--restart " ++ r
| RunField.entryF e => "--entrypoint " ++ e
| RunField.imageF i => i
| RunField.cmdF c => String.intercalate (" ") c

/-- The field sequence both generator variants emit for a specification,
overrides and label iteration order. -/
def runFields (spec : ContainerSpec) (opts : Option RunOptions)
    (labelOrder : List (String × String)) : List RunField :=
  (match opts with
   | some o =>
     if o.Name ≠ "" then [RunField.nameF o.Name]
     else if spec.Name ≠ "" then [RunField.nameF spec.Name]
     else []
   | none => if spec.Name ≠ "" then [RunField.nameF spec.Name] else [])
  ++ spec.Env.map RunField.envF
  ++ spec.Volumes.map RunField.volF
  ++ spec.Ports.map RunField.portF
  ++ spec.Networks.map RunField.netF
  ++ (if spec.WorkingDir ≠ "" then [RunField.wdF spec.WorkingDir] else [])
  ++ labelOrder.map (fun kv => RunField.labelF kv.1 kv.2)
  ++ spec.Devices.map RunField.devF
  ++ spec.ExtraHosts.map RunField.hostF
  ++ (if spec.Restart ≠ "" then [RunField.restartF spec.Restart] else [])
  ++ (match spec.EntryPoint with | [] => [] | e0 :: _ => [RunField.entryF e0])
  ++ [RunField.imageF spec.Image]
  ++ (match spec.Command with | [] => [] | _ :: _ => [RunField.cmdF spec.Command])

/-- The token-list generator renders exactly the common field sequence as
flat tokens. -/
theorem tokens_fields (spec : ContainerSpec) (opts : Option RunOptions)
    (labelOrder : List (String × String)) :
    GenerateRunCommandWithOrder spec opts labelOrder =
      (runFields spec opts labelOrder).flatMap RunField.toTokens := by
  rw [generate_closed]
  unfold runFields nameSelect labelArgs
  cases opts <;> cases h : spec.EntryPoint <;> cases hc : spec.Command <;>
    simp only [List.flatMap_append, flatMap_after_map, flatMap_ite, List.flatMap_cons,
               List.flatMap_nil, RunField.toTokens, List.nil_append, List.append_nil, h, hc] <;>
    split_ifs <;> simp [List.append_assoc]

/-- The textual variant renders exactly the common field sequence as
display parts, after its own fixed "docker run" part. -/
theorem parts_fields (spec : ContainerSpec) (opts : Option RunOptions)
    (labelOrder : List (String × String)) :
    GenerateRunCommandStrParts spec opts labelOrder =
      "docker run" :: (runFields spec opts labelOrder).map RunField.toDisplay := by
  rw [parts_closed]
  unfold runFields
  cases opts <;> cases h : spec.EntryPoint <;> cases hc : spec.Command <;>
    simp only [List.map_append, List.map_map, map_over_ite, List.map_cons, List.map_nil,
               Function.comp_def, RunField.toDisplay, List.nil_append, List.append_nil, h, hc] <;>
    split_ifs <;> simp [List.append_assoc]

/-- The parser's mount loop (parser.go lines 71-84) in closed form: one
source:destination entry per bind or volume mount, a ":ro" suffix when RW
is false, nothing for any other mount type.  The loop's emptiness test on
volumeStr coincides with the mount-type test because a source:destination
string always contains the colon. -/
theorem volumes_foldl (l : List MountData) :
    ∀ acc : List String,
      l.foldl (fun acc mount =>
        if (if mount.type = "bind" then mount.Source ++ ":" ++ mount.Destination
            else if mount.type = "volume" then mount.Source ++ ":" ++ mount.Destination
            else "") ≠ "" then
          acc ++ [if !mount.RW then
                    (if mount.type = "bind" then mount.Source ++ ":" ++ mount.Destination
                     else if mount.type = "volume" then mount.Source ++ ":" ++ mount.Destination
                     else "") ++ ":ro"
                  else
                    (if mount.type = "bind" then mount.Source ++ ":" ++ mount.Destination
                     else if mount.type = "volume" then mount.Source ++ ":" ++ mount.Destination
                     else "")]
        else acc) acc
      = acc ++ l.flatMap (fun mount =>
          if mount.type = "bind" ∨ mount.type = "volume" then
            [mount.Source ++ ":" ++ mount.Destination ++ (if mount.RW then "" else ":ro")]
          else []) := by
  induction l with
  | nil => intro acc; simp
  | cons m rest ih =>
    intro acc
    simp only [List.foldl_cons, List.flatMap_cons]
    rw [ih]
    by_cases hb : m.type = "bind" <;> by_cases hv : m.type = "volume" <;> cases hrw : m.RW <;>
      simp [hb, hv, hrw, colon_append_ne_empty, List.append_assoc]

/-- The parser's inner binding loop (parser.go lines 89-94) in closed
form: one hostPort:containerPort entry per binding with non-empty host
port. -/
theorem bindings_foldl (k : String) (bs : List PortBinding) :
    ∀ acc2 : List String,
      bs.foldl (fun acc2 binding =>
        if binding.HostPort ≠ "" then
          acc2 ++ [binding.HostPort ++ ":" ++ portKeyBase k]
        else acc2) acc2
      = acc2 ++ bs.flatMap (fun binding =>
          if binding.HostPort ≠ "" then [binding.HostPort ++ ":" ++ portKeyBase k] else []) := by
  induction bs with
  | nil => intro acc2; simp
  | cons b rest ih =>
    intro acc2
    simp only [List.foldl_cons, List.flatMap_cons]
    rw [ih]
    by_cases hb : b.HostPort = "" <;> simp [hb, List.append_assoc]

/-- The parser's port loop (parser.go lines 87-96) in closed form; the
outer positive-length guard is redundant because an empty binding list
contributes nothing anyway. -/
theorem ports_foldl (l : List (String × List PortBinding)) :
    ∀ acc : List String,
      l.foldl (fun acc kv =>
        if kv.2.length > 0 then
          kv.2.foldl (fun acc2 binding =>
            if binding.HostPort ≠ "" then
              acc2 ++ [binding.HostPort ++ ":" ++ portKeyBase kv.1]
            else acc2) acc
        else acc) acc
      = acc ++ l.flatMap (fun kv =>
          kv.2.flatMap (fun binding =>
            if binding.HostPort ≠ "" then
              [binding.HostPort ++ ":" ++ portKeyBase kv.1]
            else [])) := by
  induction l with
  | nil => intro acc; simp
  | cons kv rest ih =>
    intro acc
    simp only [List.foldl_cons, List.flatMap_cons]
    rw [ih]
    cases hk : kv.2 with
    | nil => simp
    | cons b bs =>
      rw [bindings_foldl kv.1 (b :: bs) acc]
      simp [List.append_assoc]

/-- The parser's network loop (parser.go lines 99-101) in closed form: the
keys of the networks mapping, in iteration order. -/
theorem networks_closed (data : InspectData) :
    (specFromInspect data).Networks = data.NetworkSettings.Networks.map (fun kv => kv.1) := by
  simp only [specFromInspect]
  simp [foldl_append_flat, flatMap_singleton_eq_map]

/-- The parser's device loop (parser.go lines 104-107) in closed form: one
hostPath:containerPath entry per device record. -/
theorem devices_closed (data : InspectData) :
    (specFromInspect data).Devices =
      data.HostConfig.Devices.map (fun device => device.PathOnHost ++ ":" ++ device.PathInContainer) := by
  simp only [specFromInspect]
  simp [foldl_append_flat, flatMap_singleton_eq_map]

/-- Removing at most one leading slash from a slash-prefixed string
recovers the string. -/
theorem stripSlash_slash_append (s : String) : stripSlash ("/" ++ s) = s := by
  simp [stripSlash, String.data_append]

/-- The tokens the generator emits before the label block. -/
def genPre (spec : ContainerSpec) (opts : Option RunOptions) : List String :=
  nameSelect spec opts
  ++ spec.Env.flatMap (fun env => ["-e", env])
  ++ spec.Volumes.flatMap (fun vol => ["-v", vol])
  ++ spec.Ports.flatMap (fun port => ["-p", port])
  ++ spec.Networks.flatMap (fun network => ["--network", network])
  ++ (if spec.WorkingDir ≠ "" then ["-w", spec.WorkingDir] else [])

/-- The tokens the generator emits after the label block. -/
def genSuf (spec : ContainerSpec) : List String :=
  spec.Devices.flatMap (fun device => ["--device", device])
  ++ spec.ExtraHosts.flatMap (fun host => ["--add-host", host])
  ++ (if spec.Restart ≠ "" then ["--restart", spec.Restart] else [])
  ++ (match spec.EntryPoint with | [] => [] | e0 :: _ => ["--entrypoint", e0])
  ++ [spec.Image]
  ++ spec.Command

/-- The generator's output splits around the label block, and only the
label block depends on the label iteration order. -/
theorem generate_label_split (spec : ContainerSpec) (opts : Option RunOptions)
    (labelOrder : List (String × String)) :
    GenerateRunCommandWithOrder spec opts labelOrder =
      genPre spec opts ++ labelArgs labelOrder ++ genSuf spec := by
  rw [generate_closed]
  unfold genPre genSuf
  simp [List.append_assoc]

/-- C1: for every ContainerSpec and overrides the token-list generator
emits, in this exact sequence: the name pair, one "-e" pair per
environment entry in order, one "-v" pair per volume, one "-p" pair per
port, one "--network" pair per network, a "-w" pair only for a non-empty
working directory, one "-l key=value" pair per label, one "--device" pair
per device, one "--add-host" pair per extra host, a "--restart" pair only
when non-empty, one "--entrypoint" pair holding only the first entrypoint
element when the entrypoint is non-empty (the rest discarded), then the
image exactly once unconditionally, then every command token in order;
the end-to-end example yields exactly the expected token list and a
three-element entrypoint contributes exactly the pair "--entrypoint sh". -/
theorem C1_token_emission_order :
    (∀ (spec : ContainerSpec) (opts : Option RunOptions),
      GenerateRunCommand spec opts =
        nameSelect spec opts
        ++ spec.Env.flatMap (fun env => ["-e", env])
        ++ spec.Volumes.flatMap (fun vol => ["-v", vol])
        ++ spec.Ports.flatMap (fun port => ["-p", port])
        ++ spec.Networks.flatMap (fun network => ["--network", network])
        ++ (if spec.WorkingDir ≠ "" then ["-w", spec.WorkingDir] else [])
        ++ labelArgs spec.Labels
        ++ spec.Devices.flatMap (fun device => ["--device", device])
        ++ spec.ExtraHosts.flatMap (fun host => ["--add-host", host])
        ++ (if spec.Restart ≠ "" then ["--restart", spec.Restart] else [])
        ++ (match spec.EntryPoint with | [] => [] | e0 :: _ => ["--entrypoint", e0])
        ++ [spec.Image]
        ++ spec.Command)
    ∧ GenerateRunCommand exSpecC1 none =
        ["--name", "app", "-e", "X=1", "-v", "/a:/b", "-p", "80:80", "alpine", "echo", "hi"]
    ∧ GenerateRunCommand { exSpecC1 with EntryPoint := ["sh", "-c", "x"] } none =
        ["--name", "app", "-e", "X=1", "-v", "/a:/b", "-p", "80:80", "--entrypoint", "sh",
         "alpine", "echo", "hi"] := by
  exact ⟨fun spec opts => generate_closed spec opts spec.Labels, by rfl, by rfl⟩

/-- C2: the "--name" pair uses the overrides' name when the overrides are
present with a non-empty name, else the specification's non-empty name,
and is omitted entirely when both are empty or absent; every other token
is independent of the overrides, and with overrides name "dev" the first
two tokens become "--name dev" with the rest unchanged. -/
theorem C2_name_selection :
    (∀ (spec : ContainerSpec) (opts : Option RunOptions),
      GenerateRunCommand spec opts =
        nameSelect spec opts ++ GenerateRunCommand { spec with Name := "" } none)
    ∧ (∀ (spec : ContainerSpec),
      GenerateRunCommand spec (some { Name := "dev" }) =
        ["--name", "dev"] ++ GenerateRunCommand { spec with Name := "" } none)
    ∧ GenerateRunCommand exSpecC1 (some { Name := "dev" }) =
        ["--name", "dev"] ++ (GenerateRunCommand exSpecC1 none).drop 2 := by
  refine ⟨?_, ?_, by rfl⟩
  · intro spec opts
    unfold GenerateRunCommand
    rw [generate_closed, generate_closed]
    simp [nameSelect, List.append_assoc]
  · intro spec
    unfold GenerateRunCommand
    rw [generate_closed, generate_closed]
    simp [nameSelect, List.append_assoc]

/-- C3: the parser fails with MalformedJSON exactly when the input does
not deserialize as an array of inspection objects of the expected shape,
fails with EmptyResult exactly when the array deserializes to zero
elements, and otherwise returns the specification built from the first
element only — any further elements never change the result; it can never
return both an error and a specification (the result is a sum), and an
object with every field absent decodes without error to the zero
record. -/
theorem C3_parse_error_taxonomy :
    (∀ j, ParseInspectJSON j = Except.error ParseError.MalformedJSON ↔
        decodeInspectArray j = none)
    ∧ (∀ j, ParseInspectJSON j = Except.error ParseError.EmptyResult ↔
        decodeInspectArray j = some [])
    ∧ (∀ j d rest, decodeInspectArray j = some (d :: rest) →
        ParseInspectJSON j = Except.ok (specFromInspect d))
    ∧ (∀ j j' d rest rest', decodeInspectArray j = some (d :: rest) →
        decodeInspectArray j' = some (d :: rest') →
        ParseInspectJSON j = ParseInspectJSON j')
    ∧ decodeInspectData (Json.obj []) = some zeroInspect := by
  refine ⟨?_, ?_, ?_, ?_, rfl⟩
  · intro j
    unfold ParseInspectJSON
    cases hd : decodeInspectArray j with
    | none => simp
    | some l => cases l <;> simp
  · intro j
    unfold ParseInspectJSON
    cases hd : decodeInspectArray j with
    | none => simp
    | some l => cases l <;> simp
  · intro j d rest h
    unfold ParseInspectJSON
    rw [h]
  · intro j j' d rest rest' h h'
    unfold ParseInspectJSON
    rw [h, h']

/-- C3 witness: a one-element array of an empty object parses to the zero
specification, and appending a second element leaves the result
unchanged. -/
theorem C3_parse_error_taxonomy_witness :
    ParseInspectJSON (Json.arr [Json.obj []]) = Except.ok (specFromInspect zeroInspect)
    ∧ ParseInspectJSON (Json.arr [Json.obj []]) =
        ParseInspectJSON (Json.arr [Json.obj [], Json.obj []]) := by
  exact ⟨C3_parse_error_taxonomy.2.2.1 _ zeroInspect [] (by rfl),
         C3_parse_error_taxonomy.2.2.2.1 _ _ zeroInspect [] [zeroInspect] (by rfl) (by rfl)⟩

/-- C4: every mount record of type "bind" or "volume" becomes the volume
entry source:destination, with ":ro" appended exactly when RW is false,
and every other mount type contributes no entry; the spec's bind-mount
examples evaluate as stated and a tmpfs mount is skipped. -/
theorem C4_mount_translation :
    (∀ (data : InspectData),
      (specFromInspect data).Volumes = data.Mounts.flatMap (fun mount =>
        if mount.type = "bind" ∨ mount.type = "volume" then
          [mount.Source ++ ":" ++ mount.Destination ++ (if mount.RW then "" else ":ro")]
        else []))
    ∧ (specFromInspect { zeroInspect with Mounts :=
        [{ type := "bind", Source := "/host", Destination := "/container", Mode := "",
           RW := false }] }).Volumes = ["/host:/container:ro"]
    ∧ (specFromInspect { zeroInspect with Mounts :=
        [{ type := "bind", Source := "/host", Destination := "/container", Mode := "",
           RW := true }] }).Volumes = ["/host:/container"]
    ∧ (specFromInspect { zeroInspect with Mounts :=
        [{ type := "tmpfs", Source := "/host", Destination := "/container", Mode := "",
           RW := true }] }).Volumes = [] := by
  refine ⟨?_, by rfl, by rfl, by rfl⟩
  intro data
  simp only [specFromInspect]
  rw [volumes_foldl]
  simp

/-- C5: each container-port key contributes one hostPort:containerPort
entry per binding with a non-empty host port, the container side being
the key truncated at its first slash; keys without bindings or with only
empty host ports contribute nothing, and multiple qualifying bindings
contribute one entry each without deduplication. -/
theorem C5_port_translation :
    (∀ (data : InspectData),
      (specFromInspect data).Ports = data.NetworkSettings.Ports.flatMap (fun kv =>
        kv.2.flatMap (fun binding =>
          if binding.HostPort ≠ "" then
            [binding.HostPort ++ ":" ++ portKeyBase kv.1]
          else [])))
    ∧ (specFromInspect { zeroInspect with NetworkSettings :=
        { Networks := [], Ports := [("8080/tcp", [{ HostIP := "", HostPort := "9000" }])] } }).Ports
        = ["9000:8080"]
    ∧ (specFromInspect { zeroInspect with NetworkSettings :=
        { Networks := [], Ports := [("8080/tcp", [{ HostIP := "", HostPort := "" }])] } }).Ports
        = []
    ∧ (specFromInspect { zeroInspect with NetworkSettings :=
        { Networks := [], Ports := [("8080/tcp",
            [{ HostIP := "0.0.0.0", HostPort := "9000" },
             { HostIP := "::", HostPort := "9001" }])] } }).Ports
        = ["9000:8080", "9001:8080"] := by
  refine ⟨?_, by rfl, by rfl, by rfl⟩
  intro data
  simp only [specFromInspect]
  rw [ports_foldl]
  simp

/-- C6: the parsed restart field equals the source policy name exactly
when that name is non-empty and differs from the literal "no", and is
empty otherwise; "no" gives the empty field, "always" is copied, an empty
name stays empty. -/
theorem C6_restart_policy :
    (∀ (data : InspectData),
      (specFromInspect data).Restart =
        if data.HostConfig.RestartPolicy.Name ≠ "" ∧ data.HostConfig.RestartPolicy.Name ≠ "no"
        then data.HostConfig.RestartPolicy.Name else "")
    ∧ (specFromInspect { zeroInspect with HostConfig :=
        { zeroHostConfig with RestartPolicy := { Name := "no", MaximumRetryCount := 0 } } }).Restart
        = ""
    ∧ (specFromInspect { zeroInspect with HostConfig :=
        { zeroHostConfig with RestartPolicy := { Name := "always", MaximumRetryCount := 0 } } }).Restart
        = "always"
    ∧ (specFromInspect zeroInspect).Restart = "" := by
  exact ⟨fun data => rfl, by rfl, by rfl, by rfl⟩

/-- C7: a minimal viable document (one element, image set, everything
optional absent) parses to a specification whose collection fields are
all the empty collection and whose name is the document's name with a
single leading slash removed; each collection field is empty whenever its
source data is absent (the embedding has no null distinct from the empty
collection). -/
theorem C7_minimal_document_defaults :
    (∀ (name img : String),
      ParseInspectJSON (Json.arr [Json.obj [("Name", Json.str name),
          ("Config", Json.obj [("Image", Json.str img)])]]) =
        Except.ok { Name := stripSlash name, Image := img, Env := [], Volumes := [],
                    Ports := [], Networks := [], Command := [], WorkingDir := "",
                    Labels := [], EntryPoint := [], Devices := [], ExtraHosts := [],
                    Restart := "" })
    ∧ (∀ s, stripSlash ("/" ++ s) = s)
    ∧ (∀ (data : InspectData), data.Config.Env = [] → (specFromInspect data).Env = [])
    ∧ (∀ (data : InspectData), data.Mounts = [] → (specFromInspect data).Volumes = [])
    ∧ (∀ (data : InspectData), data.NetworkSettings.Ports = [] → (specFromInspect data).Ports = [])
    ∧ (∀ (data : InspectData), data.NetworkSettings.Networks = [] →
        (specFromInspect data).Networks = [])
    ∧ (∀ (data : InspectData), data.HostConfig.Devices = [] → (specFromInspect data).Devices = [])
    ∧ (∀ (data : InspectData), data.Config.Labels = [] → (specFromInspect data).Labels = [])
    ∧ (∀ (data : InspectData), data.HostConfig.ExtraHosts = [] →
        (specFromInspect data).ExtraHosts = []) := by
  refine ⟨fun name img => rfl, stripSlash_slash_append, ?_, ?_, ?_, ?_, ?_, ?_, ?_⟩ <;>
    intro data h <;> simp [specFromInspect, h]

/-- C7 witness: at the zero inspection record the volume, port and network
collections of the parsed specification are empty. -/
theorem C7_minimal_document_defaults_witness :
    (specFromInspect zeroInspect).Volumes = []
    ∧ (specFromInspect zeroInspect).Ports = []
    ∧ (specFromInspect zeroInspect).Networks = [] := by
  exact ⟨C7_minimal_document_defaults.2.2.2.1 zeroInspect rfl,
         C7_minimal_document_defaults.2.2.2.2.1 zeroInspect rfl,
         C7_minimal_document_defaults.2.2.2.2.2.1 zeroInspect rfl⟩

/-- C8 counterexample: contrary to the claim, the textual variant itself
prefixes the client binary name and run subcommand: on the end-to-end
example specification its display string is exactly "docker run ..." and
its first part is the literal "docker run", while the token variant
begins at "--name". -/
theorem C8_counterexample_docker_run_prefixed :
    GenerateRunCommandStr exSpecC1 none =
      "docker run --name app -e \"X=1\" -v /a:/b -p 80:80 alpine echo hi"
    ∧ (GenerateRunCommandStrParts exSpecC1 none exSpecC1.Labels).head? = some "docker run"
    ∧ (GenerateRunCommand exSpecC1 none).head? = some "--name" := by
  exact ⟨by rfl, by rfl, by rfl⟩

/-- C8 (amended): the token-list variant and the textual variant emit the
same fields with the same values in the same order — rendered as flat
tokens respectively as single display parts with %q quoting applied to
environment and label values — except that the textual variant
additionally prefixes the literal "docker run" part itself before joining
everything with spaces. -/
theorem C8_variants_field_equivalence :
    ∀ (spec : ContainerSpec) (opts : Option RunOptions),
      GenerateRunCommand spec opts =
        (runFields spec opts spec.Labels).flatMap RunField.toTokens
      ∧ GenerateRunCommandStrParts spec opts spec.Labels =
          "docker run" :: (runFields spec opts spec.Labels).map RunField.toDisplay
      ∧ GenerateRunCommandStr spec opts =
          String.intercalate (" ")
            ("docker run" :: (runFields spec opts spec.Labels).map RunField.toDisplay) := by
  intro spec opts
  refine ⟨tokens_fields spec opts spec.Labels, parts_fields spec opts spec.Labels, ?_⟩
  unfold GenerateRunCommandStr
  rw [parts_fields]

/-- C9: the generator is deterministic up to label iteration order: for
any two iteration orders of the same label map (permutations of each
other), the outputs share the tokens before and after the label block,
each output's label block lists exactly its order's "-l key=value" pair
per label (every label once), the two label blocks are permutations of
each other, and hence so are the two whole outputs. -/
theorem C9_generator_determinism (spec : ContainerSpec) (opts : Option RunOptions)
    (l1 l2 : List (String × String)) (h : l1.Perm l2) :
    ∃ pre suf,
      GenerateRunCommandWithOrder spec opts l1 = pre ++ labelArgs l1 ++ suf
      ∧ GenerateRunCommandWithOrder spec opts l2 = pre ++ labelArgs l2 ++ suf
      ∧ labelArgs l1 = l1.flatMap (fun kv => ["-l", kv.1 ++ "=" ++ kv.2])
      ∧ (labelArgs l1).Perm (labelArgs l2)
      ∧ (GenerateRunCommandWithOrder spec opts l1).Perm
          (GenerateRunCommandWithOrder spec opts l2) := by
  have hperm : (labelArgs l1).Perm (labelArgs l2) := h.flatMap_right _
  refine ⟨genPre spec opts, genSuf spec, generate_label_split spec opts l1,
          generate_label_split spec opts l2, rfl, hperm, ?_⟩
  rw [generate_label_split spec opts l1, generate_label_split spec opts l2]
  have h2 := (hperm.append_right (genSuf spec)).append_left (genPre spec opts)
  simpa [List.append_assoc] using h2

/-- C9 witness: at the example specification and two opposite orders of
the same two labels, the conclusion holds as stated. -/
theorem C9_generator_determinism_witness :
    ∃ pre suf,
      GenerateRunCommandWithOrder exSpecC1 none [("a", "1"), ("b", "2")] =
        pre ++ labelArgs [("a", "1"), ("b", "2")] ++ suf
      ∧ GenerateRunCommandWithOrder exSpecC1 none [("b", "2"), ("a", "1")] =
        pre ++ labelArgs [("b", "2"), ("a", "1")] ++ suf
      ∧ labelArgs [("a", "1"), ("b", "2")] =
          [("a", "1"), ("b", "2")].flatMap (fun kv => ["-l", kv.1 ++ "=" ++ kv.2])
      ∧ (labelArgs [("a", "1"), ("b", "2")]).Perm (labelArgs [("b", "2"), ("a", "1")])
      ∧ (GenerateRunCommandWithOrder exSpecC1 none [("a", "1"), ("b", "2")]).Perm
          (GenerateRunCommandWithOrder exSpecC1 none [("b", "2"), ("a", "1")]) := by
  exact C9_generator_determinism exSpecC1 none [("a", "1"), ("b", "2")]
    [("b", "2"), ("a", "1")] (by decide)

/-- C10: a bind or volume mount always yields exactly one volume entry,
with no validation of the paths: even an empty source and destination
produce an entry — ":" when RW is true and "::ro" when RW is false. -/
theorem C10_no_path_validation :
    (∀ (data : InspectData) (mount : MountData),
      mount.type = "bind" ∨ mount.type = "volume" →
      (specFromInspect { data with Mounts := [mount] }).Volumes =
        [mount.Source ++ ":" ++ mount.Destination ++ (if mount.RW then "" else ":ro")])
    ∧ (specFromInspect { zeroInspect with Mounts :=
        [{ type := "bind", Source := "", Destination := "", Mode := "", RW := true }] }).Volumes
        = [":"]
    ∧ (specFromInspect { zeroInspect with Mounts :=
        [{ type := "volume", Source := "", Destination := "", Mode := "", RW := false }] }).Volumes
        = ["::ro"] := by
  refine ⟨?_, by rfl, by rfl⟩
  intro data mount hty
  simp only [specFromInspect]
  rw [volumes_foldl]
  rcases hty with h | h <;> cases hrw : mount.RW <;> simp [h, hrw]

/-- C10 witness: an empty-path bind mount with RW false still produces its
"::ro" entry. -/
theorem C10_no_path_validation_witness :
    (specFromInspect { zeroInspect with Mounts :=
      [{ type := "bind", Source := "", Destination := "", Mode := "", RW := false }] }).Volumes
      = ["::ro"] := by
  exact (C10_no_path_validation.1 zeroInspect
    { type := "bind", Source := "", Destination := "", Mode := "", RW := false }
    (Or.inl rfl)).trans (by rfl)
